import Mathlib

/-
Verification of the segment playback confinement logic of the mmi-yt-editor
repository.  All definitions are shallow embeddings of the functions in
src/src/components/VideoPlayerContainer.tsx (the first copy in that file,
lines 1-720).  JS numbers are modelled as rationals, fallible parsing as
Option, and each event handler as a pure function returning the list of
transport commands it issues together with the updated closure state.
-/

namespace YtEditor

/-- A command issued to the media transport (`player.pause()`, a `play()`
request, or `player.currentTime(t)` used as a seek). -/
inductive Command where
  | pause : Command
  | play : Command
  | seekTo : ℚ → Command
deriving DecidableEq, Repr

/-- Embeds the `TimestampRange` interface (VideoPlayerContainer.tsx lines
57-63): raw text fields plus derived seconds.  The TS field `end` is a Lean
keyword, so it is called `endStr` here. -/
structure TimestampRange where
  start : String
  endStr : String
  startSeconds : Option ℚ
  endSeconds : Option ℚ
  label : String
deriving DecidableEq, Repr

/-- Characters skipped by JavaScript `parseInt` before the sign: the ASCII
whitespace class (space, tab, line feed, carriage return, vertical tab,
form feed). -/
def isJsSpace (c : Char) : Bool :=
  c == ' ' || c == '\t' || c == '\n' || c == '\r' || c == '\x0b' || c == '\x0c'

/-- Numeric value of a maximal leading run of decimal digits, or `none` when
there is no leading digit (the NaN case of `parseInt`). -/
def digitsVal (cs : List Char) : Option ℕ :=
  if cs.takeWhile Char.isDigit = [] then none
  else some ((cs.takeWhile Char.isDigit).foldl (fun a c => a * 10 + (c.toNat - 48)) 0)

/-- Embeds JavaScript `parseInt(s, 10)`: skip leading whitespace, read an
optional sign, then the maximal run of decimal digits; `none` models NaN
(no digit found).  Trailing non-digit characters are ignored. -/
def jsParseInt (cs : List Char) : Option ℤ :=
  if (cs.dropWhile isJsSpace).head? = some '-' then
    (digitsVal (cs.dropWhile isJsSpace).tail).map (fun n => -(Int.ofNat n))
  else if (cs.dropWhile isJsSpace).head? = some '+' then
    (digitsVal (cs.dropWhile isJsSpace).tail).map (fun n => Int.ofNat n)
  else (digitsVal (cs.dropWhile isJsSpace)).map (fun n => Int.ofNat n)

/-- Embeds JavaScript `String.prototype.split(':')` at character-list level:
splits at every colon, keeping empty pieces. -/
def splitCols : List Char → List (List Char)
  | [] => [[]]
  | c :: cs =>
    if c = ':' then [] :: splitCols cs
    else
      match splitCols cs with
      | [] => [[c]]
      | p :: ps => (c :: p) :: ps

/-- Combines the parsed components of a time string exactly as the length
dispatch of `timeToSeconds` does (lines 43-54): HH:MM:SS, MM:SS, SS, else
`null`. -/
def combineParts : List (Option ℤ) → Option ℤ
  | [some h, some m, some s] => some (h * 3600 + m * 60 + s)
  | [some m, some s] => some (m * 60 + s)
  | [some s] => some s
  | _ => none

/-- Core of `timeToSeconds` (lines 35-55) on a character list: empty input
gives `null`; otherwise split on colons, `parseInt` each part, fail when any
part is NaN, then dispatch on the number of parts. -/
def timeToSecondsCore (cs : List Char) : Option ℤ :=
  if cs = [] then none
  else if ((splitCols cs).map jsParseInt).any (fun o => o.isNone) then none
  else combineParts ((splitCols cs).map jsParseInt)

/-- Embeds `timeToSeconds` (VideoPlayerContainer.tsx lines 35-55).  The
function is total: it never throws. -/
def timeToSeconds (s : String) : Option ℤ :=
  timeToSecondsCore s.toList

/-- Truncation toward zero on rationals, as JavaScript's implicit truncation
in the `%` remainder operator. -/
def ratTrunc (q : ℚ) : ℤ :=
  if 0 ≤ q then ⌊q⌋ else -⌊-q⌋

/-- JavaScript's `%` remainder on numbers: `a - b * trunc(a / b)`. -/
def jsMod (a b : ℚ) : ℚ :=
  a - b * ((ratTrunc (a / b) : ℤ) : ℚ)

/-- Embeds `Number.prototype.toString().padStart(2, '0')` for the integer
quantities produced inside `formatTimeString`. -/
def pad2 (n : ℤ) : String :=
  let s := toString n
  if s.length < 2 then "0" ++ s else s

/-- Embeds `formatTimeString` (VideoPlayerContainer.tsx lines 463-476):
hours, minutes and whole seconds by flooring, centiseconds from the
fractional part, all joined by colons, with the hour field omitted when
zero.  Note the seconds part is `SS:cc` — centiseconds are joined with a
colon, not a decimal point. -/
def formatTimeString (seconds : ℚ) : String :=
  if (⌊seconds / 3600⌋ : ℤ) > 0 then
    pad2 ⌊seconds / 3600⌋ ++ ":" ++ pad2 ⌊(jsMod seconds 3600) / 60⌋ ++ ":" ++
      (pad2 ⌊jsMod seconds 60⌋ ++ ":" ++ pad2 ⌊(jsMod seconds 1) * 100⌋)
  else
    pad2 ⌊(jsMod seconds 3600) / 60⌋ ++ ":" ++
      (pad2 ⌊jsMod seconds 60⌋ ++ ":" ++ pad2 ⌊(jsMod seconds 1) * 100⌋)

/-- Embeds `String.prototype.trim` at character-list level (whitespace
stripped from both ends; the fixtures below contain only ASCII, for which
this matches JS exactly). -/
def jsTrim (cs : List Char) : List Char :=
  ((cs.dropWhile isJsSpace).reverse.dropWhile isJsSpace).reverse

/-- Embeds the filter of the confinement effect (VideoPlayerContainer.tsx
lines 191-196): a range survives when both derived seconds are non-null and
both raw strings are non-empty after trimming.  There is no
`startSeconds < endSeconds` check in that filter. -/
def isValidRange (r : TimestampRange) : Bool :=
  r.startSeconds.isSome && r.endSeconds.isSome &&
    !(jsTrim r.start.toList).isEmpty && !(jsTrim r.endStr.toList).isEmpty

/-- Stable insertion of a range into a list sorted ascending by
`startSeconds || 0`: the inserted (earlier) range goes before key-equal
elements, matching the stable ascending sort that
`Array.prototype.sort((a, b) => (a.startSeconds || 0) - (b.startSeconds || 0))`
performs with this consistent comparator. -/
def insertByStart (r : TimestampRange) : List TimestampRange → List TimestampRange
  | [] => [r]
  | x :: xs =>
    if x.startSeconds.getD 0 < r.startSeconds.getD 0 then x :: insertByStart r xs
    else r :: x :: xs

/-- Stable insertion sort by `startSeconds || 0`, ascending. -/
def sortByStartKey : List TimestampRange → List TimestampRange
  | [] => []
  | x :: xs => insertByStart x (sortByStartKey xs)

/-- Embeds the derived `validRanges` view (VideoPlayerContainer.tsx lines
191-200): filter, then sort ascending by `startSeconds || 0` (stable). -/
def validRanges (rs : List TimestampRange) : List TimestampRange :=
  sortByStartKey (rs.filter isValidRange)

/-- Outcome of the result of the handler of one `timeupdate` or `seeked`
notification: the transport commands issued, in order, and the new value of
the closure variable `currentSegmentIndex`. -/
structure TimeUpdateResult where
  commands : List Command
  currentSegmentIndex : ℕ
deriving DecidableEq, Repr

/-- The end seconds of the active range selected by the isolated-mode block
(line 218): index `Math.min(activeSegmentIndex, validRanges.length - 1)`
into the sorted valid view, then its `endSeconds`. -/
def activeEnd (vr : List TimestampRange) (ai : ℤ) : Option ℚ :=
  (vr[(min ai ((vr.length : ℤ) - 1)).toNat]?).bind (fun r => r.endSeconds)

/-- Embeds the single-segment-mode block of `timeUpdateHandler` (lines
216-237): when `singleSegmentMode && activeSegmentIndex >= 0`, the clamped
active range has a truthy `endSeconds` (non-null and non-zero), and
`currentTime` has reached it, the handler pauses and (via a 10ms timeout
whose guard always holds here) repositions to `endSeconds - 0.1` and
returns.  In every other case the handler falls through. -/
def isolatedCheck (vr : List TimestampRange) (mode : Bool) (ai : ℤ) (cur : ℕ)
    (t : ℚ) : Option TimeUpdateResult :=
  if mode = true ∧ 0 ≤ ai then
    match activeEnd vr ai with
    | some e =>
      if e ≠ 0 ∧ e ≤ t then some ⟨[Command.pause, Command.seekTo (e - 1/10)], cur⟩
      else none
    | none => none
  else none

/-- Embeds the containment loop (lines 242-251): the first index whose range
has non-null bounds with `startSeconds <= currentTime < endSeconds`. -/
def findContainingAux (t : ℚ) : ℕ → List TimestampRange → Option ℕ
  | _, [] => none
  | i, r :: rest =>
    match r.startSeconds, r.endSeconds with
    | some s, some e =>
      if s ≤ t ∧ t < e then some i else findContainingAux t (i + 1) rest
    | _, _ => findContainingAux t (i + 1) rest

/-- The containment loop started at index 0. -/
def findContaining (vr : List TimestampRange) (t : ℚ) : Option ℕ :=
  findContainingAux t 0 vr

/-- Outcome of the passed-segment loop (lines 253-274). -/
inductive PassedOutcome where
  | advance : ℚ → ℕ → PassedOutcome
  | pauseAtEnd : PassedOutcome
  | nothing : PassedOutcome
deriving DecidableEq, Repr

/-- Embeds the passed-segment loop (lines 253-274), scanning `rest` (a
suffix of the full view `vr`) with `i` the index of its head in `vr`: a
range whose buffered end `endSeconds + 0.5` the playhead has reached, and
whose index equals the recorded `currentSegmentIndex`, either advances to
the next range's start (auto-advance mode, not the last range, next start
non-null) or pauses; all other ranges are skipped. -/
def passedScanAux (vr : List TimestampRange) (mode : Bool) (cur : ℕ) (t : ℚ) :
    ℕ → List TimestampRange → PassedOutcome
  | _, [] => PassedOutcome.nothing
  | i, r :: rest =>
    match r.endSeconds with
    | none => passedScanAux vr mode cur t (i + 1) rest
    | some e =>
      if e + 1/2 ≤ t ∧ i = cur then
        if mode = false ∧ i < vr.length - 1 then
          match (vr[i + 1]?).bind (fun x => x.startSeconds) with
          | some s => PassedOutcome.advance s (i + 1)
          | none => passedScanAux vr mode cur t (i + 1) rest
        else PassedOutcome.pauseAtEnd
      else passedScanAux vr mode cur t (i + 1) rest

/-- Embeds the final guard of `timeUpdateHandler` (lines 285-290): pause
when the playhead is strictly beyond the last range's `endSeconds + 0.5`.
(The handler is only installed when the view is non-empty; the empty case
is modelled as a no-op.) -/
def lastCheck (vr : List TimestampRange) (cur : ℕ) (t : ℚ) : TimeUpdateResult :=
  match vr.getLast?.bind (fun r => r.endSeconds) with
  | some e => if e + 1/2 < t then ⟨[Command.pause], cur⟩ else ⟨[], cur⟩
  | none => ⟨[], cur⟩

/-- Embeds the non-isolated part of `timeUpdateHandler` (lines 239-291):
containment scan, passed-segment scan, snap-to-first-segment
(`initializeSegment`, guarded by non-single-segment mode), then the
beyond-last-segment pause. -/
def autoScan (vr : List TimestampRange) (mode : Bool) (cur : ℕ) (t : ℚ) :
    TimeUpdateResult :=
  match findContaining vr t with
  | some i => ⟨[], i⟩
  | none =>
    match passedScanAux vr mode cur t 0 vr with
    | PassedOutcome.advance s j => ⟨[Command.seekTo s], j⟩
    | PassedOutcome.pauseAtEnd => ⟨[Command.pause], cur⟩
    | PassedOutcome.nothing =>
      match vr.head?.bind (fun r => r.startSeconds) with
      | some s =>
        if mode = false ∧ t < s then ⟨[Command.seekTo s], cur⟩
        else lastCheck vr cur t
      | none => lastCheck vr cur t

/-- Embeds `timeUpdateHandler` (VideoPlayerContainer.tsx lines 212-292) for
one `timeupdate` notification at time `t`, with `vr` the sorted valid view,
`mode` the `singleSegmentMode` flag, `ai` the `activeSegmentIndex`, and
`cur` the closure variable `currentSegmentIndex`. -/
def timeUpdateHandler (vr : List TimestampRange) (mode : Bool) (ai : ℤ)
    (cur : ℕ) (t : ℚ) : TimeUpdateResult :=
  match isolatedCheck vr mode ai cur t with
  | some res => res
  | none => autoScan vr mode cur t

/-- First index whose range has a non-null `startSeconds` strictly greater
than `t`, embedding the final loop of `seekedHandler` (lines 320-327). -/
def firstLaterAux (t : ℚ) : ℕ → List TimestampRange → Option (ℕ × ℚ)
  | _, [] => none
  | i, r :: rest =>
    match r.startSeconds with
    | some s => if t < s then some (i, s) else firstLaterAux t (i + 1) rest
    | none => firstLaterAux t (i + 1) rest

/-- Embeds `seekedHandler` (VideoPlayerContainer.tsx lines 294-330) for one
`seeked` notification at time `t`: a complete no-op in single-segment mode;
otherwise, when the playhead is outside every valid range, snap to the
first range's start if before it, pause if beyond the last range's end,
else seek to the next range's start. -/
def seekedHandler (vr : List TimestampRange) (mode : Bool) (cur : ℕ) (t : ℚ) :
    TimeUpdateResult :=
  if mode = true then ⟨[], cur⟩
  else if (findContaining vr t).isSome then ⟨[], cur⟩
  else if t < (vr.head?.bind (fun r => r.startSeconds)).getD 0 then
    match vr.head?.bind (fun r => r.startSeconds) with
    | some s => ⟨[Command.seekTo s], cur⟩
    | none => ⟨[], cur⟩
  else if (vr.getLast?.bind (fun r => r.endSeconds)).getD 0 < t then
    ⟨[Command.pause], cur⟩
  else
    match firstLaterAux t 0 vr with
    | some (i, s) => ⟨[Command.seekTo s], i⟩
    | none => ⟨[], cur⟩

/-- Result of the `jumpToTimestamp` UI command: commands issued plus the new
`singleSegmentMode` and `activeSegmentIndex` component state. -/
structure JumpResult where
  commands : List Command
  singleSegmentMode : Bool
  activeSegmentIndex : ℤ
deriving DecidableEq, Repr

/-- Embeds `jumpToTimestamp` (VideoPlayerContainer.tsx lines 388-424) with a
player attached: `index` is an index into the raw, insertion-ordered
`timestampRanges` list.  When the entry is missing or its `startSeconds` is
null nothing happens; otherwise the handler pauses, seeks to the entry's
start, and switches to single-segment mode on this index.  (The conditional
100ms re-seek scheduled at lines 415-423 re-issues the same seek at most
once and is elided; it never issues `play` or `pause`.) -/
def jumpToTimestamp (timestampRanges : List TimestampRange) (mode : Bool)
    (ai : ℤ) (index : ℕ) : JumpResult :=
  match timestampRanges[index]? with
  | none => ⟨[], mode, ai⟩
  | some range =>
    match range.startSeconds with
    | none => ⟨[], mode, ai⟩
    | some s => ⟨[Command.pause, Command.seekTo s], true, (index : ℤ)⟩

/-- The component state relevant to segment confinement: the raw range list
plus the two mode flags (three separate `useState` cells, lines 78-81). -/
structure EngineView where
  singleSegmentMode : Bool
  activeSegmentIndex : ℤ
  timestampRanges : List TimestampRange
deriving DecidableEq, Repr

/-- Embeds replacing the segment list
(`handleTimestampRangesChange` → `setTimestampRanges`, lines 91-93): only
the `timestampRanges` state cell changes; the confinement effect then
recomputes `validRanges` from it.  No code path touches `singleSegmentMode`
or `activeSegmentIndex` when the list is replaced. -/
def setSegments (st : EngineView) (rs : List TimestampRange) : EngineView :=
  { st with timestampRanges := rs }

/-- The transport state visible to the handlers.  Both handlers read only
`player.currentTime()`; `player.duration()` is never called anywhere in
VideoPlayerContainer.tsx. -/
structure PlayerState where
  currentTime : ℚ
  duration : ℚ
deriving DecidableEq, Repr

/-- `timeUpdateHandler` as driven by a transport state: it reads only
`currentTime` from the player. -/
def timeUpdateFromPlayer (p : PlayerState) (vr : List TimestampRange)
    (mode : Bool) (ai : ℤ) (cur : ℕ) : TimeUpdateResult :=
  timeUpdateHandler vr mode ai cur p.currentTime

/-- `seekedHandler` as driven by a transport state: it reads only
`currentTime` from the player. -/
def seekedFromPlayer (p : PlayerState) (vr : List TimestampRange)
    (mode : Bool) (cur : ℕ) : TimeUpdateResult :=
  seekedHandler vr mode cur p.currentTime

/-
Concrete fixtures used by the theorems below.
-/

/-- The segment (10, 20) of the spec's running example. -/
def rng10_20 : TimestampRange := ⟨"10", "20", some 10, some 20, "Segment 1"⟩

/-- The segment (30, 40) of the spec's running example. -/
def rng30_40 : TimestampRange := ⟨"30", "40", some 30, some 40, "Segment 2"⟩

/-- The example segments `[(10,20),(30,40)]`, already in time order. -/
def vrPair : List TimestampRange := [rng10_20, rng30_40]

/-- The single example segment `[(10,20)]`. -/
def vrSingle : List TimestampRange := [rng10_20]

/-- The example segments entered in reverse insertion order, so insertion
indices and sorted-view indices disagree. -/
def rsUnsorted : List TimestampRange := [rng30_40, rng10_20]

/-- A range whose seconds are both present but inverted (start 20 >= end
10), with non-empty raw text. -/
def rngInverted : TimestampRange := ⟨"20", "10", some 20, some 10, ""⟩

/-- A range ending at 0.05 seconds, as the `onCut` path can produce via
`parseFloat` of a fractional timestamp (lines 435-450). -/
def rngTiny : TimestampRange := ⟨"00:00:00", "00:00:05", some 0, some (1/20), ""⟩

/-- A component state in isolated mode on active index 5. -/
def stIso5 : EngineView := ⟨true, 5, []⟩

/-
C9 — seekedHandler is a complete no-op in single-segment mode.
-/

/-- C9: while the engine is in IsolatedSegment mode (the component's
`singleSegmentMode` flag is set, which that mode implies), every user-seek
notification is a complete no-op: `seekedHandler` issues no `seekTo`, no
`play` and no `pause`, and leaves `currentSegmentIndex` unchanged, for
every reported time and every segment view. -/
theorem C9_thm : ∀ (vr : List TimestampRange) (cur : ℕ) (t : ℚ),
    seekedHandler vr true cur t = ⟨[], cur⟩ := by
  intro vr cur t
  simp [seekedHandler]

/-
C10 — jumpToTimestamp on a missing entry or null start is a no-op.
-/

/-- C10: for every index `i`, calling `jumpToTimestamp i` when the raw
segment list has no entry at `i`, or the entry at `i` has a null
`startSeconds`, issues no transport command and leaves `singleSegmentMode`
and `activeSegmentIndex` unchanged (guard at lines 396-400). -/
theorem C10_thm : ∀ (rs : List TimestampRange) (mode : Bool) (ai : ℤ) (i : ℕ),
    (rs[i]? = none ∨ ∃ r, rs[i]? = some r ∧ r.startSeconds = none) →
    jumpToTimestamp rs mode ai i = ⟨[], mode, ai⟩ := by
  intro rs mode ai i h
  rcases h with h | ⟨r, hr, hs⟩
  · simp [jumpToTimestamp, h]
  · simp [jumpToTimestamp, hr, hs]

/-- Witness for C10 at the empty placeholder range the component starts
with (line 78): the entry exists but its `startSeconds` is null. -/
theorem C10_wit :
    jumpToTimestamp [⟨"", "", none, none, ""⟩] false (-1) 0 = ⟨[], false, -1⟩ :=
  C10_thm [⟨"", "", none, none, ""⟩] false (-1) 0 (Or.inr ⟨⟨"", "", none, none, ""⟩, rfl, rfl⟩)

/-
C1 — jumpToSegment: what it actually issues and how it indexes.
-/

/-- C1 counterexample: with the segments entered as `[(30,40),(10,20)]`,
`jumpToTimestamp 1` issues `pause()` then `seekTo(10)` — the start of entry
1 of the raw insertion-order list — and never issues `play()`, while
element 1 of the sorted valid view starts at 30.  This contradicts the
claim that the operation seeks the sorted-view segment's start and then
issues `play()`. -/
theorem C1_cex :
    jumpToTimestamp rsUnsorted false (-1) 1 =
      ⟨[Command.pause, Command.seekTo 10], true, 1⟩
    ∧ ((validRanges rsUnsorted)[1]?).bind (fun r => r.startSeconds) = some 30
    ∧ Command.play ∉ (jumpToTimestamp rsUnsorted false (-1) 1).commands := by
  refine ⟨rfl, by decide, by decide⟩

/-- C1 amended: for every index `i` into the raw insertion-order segment
list whose entry has a non-null `startSeconds`, `jumpToTimestamp i` issues
`pause()` then `seekTo` of that entry's start (and no `play()`), and
switches to single-segment mode with `activeSegmentIndex = i`, an index
into the insertion-order list, not the sorted valid view. -/
theorem C1_thm : ∀ (rs : List TimestampRange) (mode : Bool) (ai : ℤ) (i : ℕ)
    (r : TimestampRange) (s : ℚ),
    rs[i]? = some r → r.startSeconds = some s →
    jumpToTimestamp rs mode ai i = ⟨[Command.pause, Command.seekTo s], true, (i : ℤ)⟩ := by
  intro rs mode ai i r s h1 h2
  simp [jumpToTimestamp, h1, h2]

/-- Witness for C1 at the reverse-ordered fixture. -/
theorem C1_wit :
    jumpToTimestamp rsUnsorted false (-1) 1 =
      ⟨[Command.pause, Command.seekTo 10], true, 1⟩ :=
  C1_thm rsUnsorted false (-1) 1 rng10_20 10 rfl rfl

/-
C3 — the valid view does not actually exclude inverted ranges.
-/

/-- C3: a range with `startSeconds = 20 >= endSeconds = 10` (both non-null,
raw text non-empty) is returned by `validRanges` — the filter at lines
191-196 checks only non-null seconds and non-empty text, never
`start < end` — although `handleLoadVideo`'s comment (line 112) says such a
range "will be filtered out later". -/
theorem C3_eval :
    validRanges [rngInverted] = [rngInverted]
    ∧ rngInverted.endSeconds.getD 0 ≤ rngInverted.startSeconds.getD 0 := by
  refine ⟨by decide, by decide⟩

/-
C5 — setSegments never resets the mode.
-/

/-- C5 counterexample: replacing the segments while in isolated mode on
active index 5 leaves `singleSegmentMode = true` and
`activeSegmentIndex = 5` even though the new sorted valid view has only 2
entries, so index 5 is out of range; the claim says the engine would reset
the mode to AutoAdvance in this case. -/
theorem C5_cex :
    (setSegments stIso5 vrPair).singleSegmentMode = true
    ∧ (setSegments stIso5 vrPair).activeSegmentIndex = 5
    ∧ (validRanges vrPair).length = 2 := by
  refine ⟨rfl, rfl, by decide⟩

/-- C5 amended: `setSegments` always preserves the current mode and
activeIndex, whether or not the activeIndex is still in range of the new
sorted valid view; an out-of-range activeIndex is instead clamped by the
position-advance handler (`Math.min(activeSegmentIndex, length - 1)`, line
218), as the second conjunct shows at activeIndex 5 over a 2-element view:
the handler acts on the clamped segment (30,40). -/
theorem C5_thm :
    (∀ (st : EngineView) (rs : List TimestampRange),
      (setSegments st rs).singleSegmentMode = st.singleSegmentMode ∧
      (setSegments st rs).activeSegmentIndex = st.activeSegmentIndex)
    ∧ timeUpdateHandler (validRanges vrPair) true 5 0 40 =
        ⟨[Command.pause, Command.seekTo (40 - 1/10)], 0⟩ := by
  constructor
  · intro st rs
    exact ⟨rfl, rfl⟩
  · have hv : validRanges vrPair = vrPair := by decide
    rw [hv]
    rfl

/-
C4 — auto-advance at t = 20.2 versus the 0.5s passed-segment buffer.
-/

/-- C4 counterexample: with segments `[(10,20),(30,40)]` in auto-advance
mode and segment 0 recorded as current, a position-advance notification at
`t = 20.2` issues no command at all — in particular not the claimed single
`seekTo(30)` — because `20.2 < 20 + 0.5`, the passed-segment buffer the
handler (and the spec's own tolerance rule) requires before advancing. -/
theorem C4_cex :
    timeUpdateHandler vrPair false (-1) 0 (101/5) = ⟨[], 0⟩
    ∧ Command.seekTo 30 ∉ (timeUpdateHandler vrPair false (-1) 0 (101/5)).commands := by
  have h : timeUpdateHandler vrPair false (-1) 0 (101/5) = ⟨[], 0⟩ := by
    norm_num [timeUpdateHandler, isolatedCheck, autoScan, findContaining,
      findContainingAux, passedScanAux, lastCheck, vrPair, rng10_20, rng30_40]
  refine ⟨h, ?_⟩
  rw [h]
  simp

/-- C4 amended: with the same segments, mode and recorded segment, a
position-advance at any `t` with `20.5 <= t < 30` (past the 0.5s buffer,
e.g. `t = 20.6`) results in exactly one `seekTo(30)`, no `pause()`, and the
recorded segment advancing to 1. -/
theorem C4_thm : ∀ t : ℚ, 41/2 ≤ t → t < 30 →
    timeUpdateHandler vrPair false (-1) 0 t = ⟨[Command.seekTo 30], 1⟩ := by
  intro t h1 h2
  have hn1 : ¬((10:ℚ) ≤ t ∧ t < 20) := by
    rintro ⟨ha, hb⟩
    linarith
  have hn2 : ¬((30:ℚ) ≤ t ∧ t < 40) := by
    rintro ⟨ha, hb⟩
    linarith
  simp [timeUpdateHandler, isolatedCheck, autoScan, findContaining,
    findContainingAux, passedScanAux, vrPair, rng10_20, rng30_40, hn1, hn2]
  rw [if_pos (show (20:ℚ) + 2⁻¹ ≤ t by linarith)]

/-- Witness for C4 at `t = 20.6`. -/
theorem C4_wit :
    timeUpdateHandler vrPair false (-1) 0 (103/5) = ⟨[Command.seekTo 30], 1⟩ :=
  C4_thm (103/5) (by norm_num) (by norm_num)

/-
C2 — the parse/format round trip.
-/

/-- C2: the round trip fails already at `x = 1`: `formatTimeString 1`
produces `"00:01:00"` (whole seconds and centiseconds joined by a colon),
which `timeToSeconds` reads as HH:MM:SS, giving 60 instead of
`floor 1 = 1`; and for `x = 3600` the formatted string has four
colon-separated components, which `timeToSeconds` rejects as null. -/
theorem C2_eval :
    timeToSeconds (formatTimeString 1) = some 60
    ∧ timeToSeconds (formatTimeString 1) ≠ some ⌊(1:ℚ)⌋
    ∧ timeToSeconds (formatTimeString 3600) = none := by
  have e1 : formatTimeString 1 = "00:01:00" := by
    have h1 : jsMod (1:ℚ) 3600 = 1 := by
      unfold jsMod ratTrunc
      norm_num
    have h2 : jsMod (1:ℚ) 60 = 1 := by
      unfold jsMod ratTrunc
      norm_num
    have h3 : jsMod (1:ℚ) 1 = 0 := by
      unfold jsMod ratTrunc
      norm_num
    unfold formatTimeString
    rw [h1, h2, h3]
    norm_num
    decide
  have e2 : formatTimeString 3600 = "01:00:00:00" := by
    have h1 : jsMod (3600:ℚ) 3600 = 0 := by
      unfold jsMod ratTrunc
      norm_num
    have h2 : jsMod (3600:ℚ) 60 = 0 := by
      unfold jsMod ratTrunc
      norm_num
    have h3 : jsMod (3600:ℚ) 1 = 0 := by
      unfold jsMod ratTrunc
      norm_num
    unfold formatTimeString
    rw [h1, h2, h3]
    norm_num
    decide
  have hf : (⌊(1:ℚ)⌋ : ℤ) = 1 := by norm_num
  rw [e1, e2, hf]
  refine ⟨by decide, by decide, by decide⟩

/-
C7 — there is no duration guard.
-/

/-- C7 counterexample: with a transport reporting `duration = 0` (and
position 0) and the single valid segment (10,20) in auto-advance mode, the
position-advance handler still issues `seekTo(10)` (the snap-to-first
correction), contradicting the claim that every position-dependent
correction is skipped while `duration <= 0`. -/
theorem C7_cex :
    (PlayerState.mk 0 0).duration ≤ 0
    ∧ (timeUpdateFromPlayer ⟨0, 0⟩ vrSingle false (-1) 0).commands =
        [Command.seekTo 10] := by
  constructor
  · exact le_refl 0
  · norm_num [timeUpdateFromPlayer, timeUpdateHandler, isolatedCheck, autoScan,
      findContaining, findContainingAux, passedScanAux, lastCheck, vrSingle,
      rng10_20]

/-- C7 amended: the handlers never consult the transport's reported
duration — their outputs depend only on `currentTime` — so position
corrections are issued regardless of whether a valid duration is known; in
particular a user-seek notification at `t = 25` with `duration = 0` still
issues the beyond-last-segment `pause()`. -/
theorem C7_thm :
    (∀ (ct d dNew : ℚ) (vr : List TimestampRange) (mode : Bool) (ai : ℤ) (cur : ℕ),
      timeUpdateFromPlayer ⟨ct, d⟩ vr mode ai cur =
        timeUpdateFromPlayer ⟨ct, dNew⟩ vr mode ai cur
      ∧ seekedFromPlayer ⟨ct, d⟩ vr mode cur = seekedFromPlayer ⟨ct, dNew⟩ vr mode cur)
    ∧ (seekedFromPlayer ⟨25, 0⟩ vrSingle false 0).commands = [Command.pause] := by
  constructor
  · intro ct d dNew vr mode ai cur
    exact ⟨rfl, rfl⟩
  · norm_num [seekedFromPlayer, seekedHandler, findContaining, findContainingAux,
      firstLaterAux, vrSingle, rng10_20]

/-
C6 — isolated-mode behaviour of the position-advance handler.
-/

/-- Every command issued by the beyond-last-segment guard is a pause. -/
lemma lastCheck_commands : ∀ (vr : List TimestampRange) (cur : ℕ) (t : ℚ),
    ∀ c ∈ (lastCheck vr cur t).commands, c = Command.pause := by
  intro vr cur t c hc
  unfold lastCheck at hc
  split at hc
  · split at hc
    · simpa using hc
    · simp at hc
  · simp at hc

/-- In single-segment mode the passed-segment loop never advances: its
auto-advance branch is guarded by `!singleSegmentMode`. -/
lemma passedScan_mode_true : ∀ (vr rest : List TimestampRange) (cur : ℕ) (t : ℚ)
    (i : ℕ),
    passedScanAux vr true cur t i rest = PassedOutcome.pauseAtEnd ∨
    passedScanAux vr true cur t i rest = PassedOutcome.nothing := by
  intro vr rest cur t
  induction rest with
  | nil =>
    intro i
    right
    rfl
  | cons x xs ih =>
    intro i
    simp only [passedScanAux]
    split
    · exact ih (i + 1)
    · split
      · split
        · rename_i hfalse
          exact absurd hfalse.1 (by simp)
        · left
          rfl
      · exact ih (i + 1)

/-- In single-segment mode the non-isolated part of the handler can only
pause: advancing and snap-to-first are both guarded by
`!singleSegmentMode`. -/
lemma autoScan_mode_true : ∀ (vr : List TimestampRange) (cur : ℕ) (t : ℚ),
    ∀ c ∈ (autoScan vr true cur t).commands, c = Command.pause := by
  intro vr cur t c hc
  unfold autoScan at hc
  split at hc
  · simp at hc
  · split at hc
    · rename_i s j heq
      rcases passedScan_mode_true vr vr cur t 0 with hp | hp <;>
        rw [heq] at hp <;> cases hp
    · simpa using hc
    · split at hc
      · split at hc
        · rename_i hfalse
          exact absurd hfalse.1 (by simp)
        · exact lastCheck_commands vr cur t c hc
      · exact lastCheck_commands vr cur t c hc

/-- Inversion of the isolated-mode block: when it fires, the result is
exactly pause followed by the `endSeconds - 0.1` reposition of the clamped
active segment. -/
lemma isolatedCheck_true_inv : ∀ (vr : List TimestampRange) (ai : ℤ) (cur : ℕ)
    (t : ℚ) (res : TimeUpdateResult),
    isolatedCheck vr true ai cur t = some res →
    ∃ e, activeEnd vr ai = some e ∧
      res = ⟨[Command.pause, Command.seekTo (e - 1/10)], cur⟩ := by
  intro vr ai cur t res h
  unfold isolatedCheck at h
  split at h
  · split at h
    · rename_i e hE
      split at h
      · exact ⟨e, hE, (Option.some.inj h).symm⟩
      · cases h
    · cases h
  · cases h

/-- C6 counterexample, two parts.  First: with segments `[(10,20),(30,40)]`
isolated on index 1 and `currentSegmentIndex = 0`, a position-advance at
`t = 25` (below the active segment's end, so the claim says "no command")
falls through to the shared scan and issues a `pause()` because segment 0
is passed by more than 0.5s.  Second: with a segment ending at 0.05s
isolated on index 0, a position-advance at `t = 1` repositions to
`0.05 - 0.1 = -0.05`, a negative target — there is no clamp to 0. -/
theorem C6_cex :
    (timeUpdateHandler vrPair true 1 0 25).commands = [Command.pause]
    ∧ (timeUpdateHandler [rngTiny] true 0 0 1).commands =
        [Command.pause, Command.seekTo (-(1/20))] := by
  constructor
  · norm_num [timeUpdateHandler, isolatedCheck, activeEnd, autoScan, findContaining,
      findContainingAux, passedScanAux, lastCheck, vrPair, rng10_20, rng30_40]
  · norm_num [timeUpdateHandler, isolatedCheck, activeEnd, rngTiny]

/-- C6 amended: in isolated mode (`singleSegmentMode` with a non-negative
`activeSegmentIndex`), when `currentSeconds` has reached the clamped active
segment's non-zero `endSeconds` the handler issues exactly `pause()` then
`seekTo(endSeconds - 0.1)` with no non-negativity clamp; and in every case
each issued command is either a `pause()` or that same reposition — in
particular the handler never seeks to another segment's start in this
mode. -/
theorem C6_thm : ∀ (vr : List TimestampRange) (ai : ℤ) (cur : ℕ) (t : ℚ),
    0 ≤ ai →
    (∀ e, activeEnd vr ai = some e → e ≠ 0 → e ≤ t →
      timeUpdateHandler vr true ai cur t =
        ⟨[Command.pause, Command.seekTo (e - 1/10)], cur⟩)
    ∧ (∀ c ∈ (timeUpdateHandler vr true ai cur t).commands,
        c = Command.pause ∨
          ∃ e, activeEnd vr ai = some e ∧ c = Command.seekTo (e - 1/10)) := by
  intro vr ai cur t hai
  constructor
  · intro e hE he0 het
    have hiso : isolatedCheck vr true ai cur t =
        some ⟨[Command.pause, Command.seekTo (e - 1/10)], cur⟩ := by
      unfold isolatedCheck
      rw [hE]
      simp [hai, he0, het]
    unfold timeUpdateHandler
    rw [hiso]
  · intro c hc
    unfold timeUpdateHandler at hc
    split at hc
    · rename_i res hI
      obtain ⟨e, hE, hres⟩ := isolatedCheck_true_inv vr ai cur t res hI
      subst hres
      simp only [List.mem_cons, List.not_mem_nil, or_false] at hc
      rcases hc with hc | hc
      · exact Or.inl hc
      · exact Or.inr ⟨e, hE, hc⟩
    · exact Or.inl (autoScan_mode_true vr cur t c hc)

/-- Witness for C6 at the example segments, isolated on (30,40), `t = 40`. -/
theorem C6_wit :
    timeUpdateHandler vrPair true 1 0 40 =
      ⟨[Command.pause, Command.seekTo (40 - 1/10)], 0⟩ :=
  (C6_thm vrPair 1 0 40 (by decide)).1 40 rfl (by norm_num) (by norm_num)

/-
C8 — when timeToSeconds returns null.
-/

/-- Formalises the claim's vocabulary "numeric integer (including negative
or out-of-range values)": an optional sign followed by at least one decimal
digit and nothing else. -/
def isNumericIntegerStr (cs : List Char) : Bool :=
  if cs.head? = some '-' ∨ cs.head? = some '+' then
    !cs.tail.isEmpty && cs.tail.all Char.isDigit
  else
    !cs.isEmpty && cs.all Char.isDigit

/-- Splitting on colons always yields at least one (possibly empty) piece. -/
lemma splitCols_ne_nil : ∀ cs : List Char, splitCols cs ≠ [] := by
  intro cs
  induction cs with
  | nil => simp [splitCols]
  | cons c cs ih =>
    unfold splitCols
    by_cases h : c = ':'
    · simp [h]
    · rw [if_neg h]
      split
      · simp
      · simp

/-- A decimal digit is not `parseInt` whitespace. -/
lemma isJsSpace_of_isDigit (c : Char) (h : c.isDigit = true) :
    isJsSpace c = false := by
  cases hjs : isJsSpace c with
  | false => rfl
  | true =>
    exfalso
    unfold isJsSpace at hjs
    simp only [Bool.or_eq_true, beq_iff_eq] at hjs
    rcases hjs with ((((rfl | rfl) | rfl) | rfl) | rfl) | rfl <;>
      exact absurd h (by decide)

/-- An all-digit, non-empty run has a numeric value. -/
lemma digitsVal_ne_none (r : List Char) (h1 : r ≠ [])
    (h2 : ∀ x ∈ r, x.isDigit = true) : digitsVal r ≠ none := by
  unfold digitsVal
  rw [List.takeWhile_eq_self_iff.mpr h2, if_neg h1]
  simp

/-- Every numeric-integer string is accepted by `parseInt`. -/
lemma jsParseInt_ne_none_of_numeric :
    ∀ p : List Char, isNumericIntegerStr p = true → jsParseInt p ≠ none := by
  intro p h
  rcases p with _ | ⟨c, r⟩
  · exact absurd h (by decide)
  · unfold isNumericIntegerStr at h
    simp only [List.head?_cons, List.tail_cons] at h
    by_cases hsign : (some c = some '-' ∨ some c = some '+')
    · rw [if_pos hsign] at h
      simp only [Bool.and_eq_true, Bool.not_eq_true', List.isEmpty_eq_false,
        List.all_eq_true] at h
      obtain ⟨hne, hall⟩ := h
      have hdw : List.dropWhile isJsSpace (c :: r) = c :: r := by
        rw [List.dropWhile_cons]
        rcases hsign with h' | h' <;> rw [Option.some.inj h']
        · rw [if_neg (by decide)]
        · rw [if_neg (by decide)]
      unfold jsParseInt
      rw [hdw]
      simp only [List.head?_cons, List.tail_cons]
      rcases hsign with h' | h'
      · rw [if_pos h']
        simp only [Ne, Option.map_eq_none']
        exact digitsVal_ne_none r hne hall
      · by_cases hminus : (some c = some '-')
        · rw [if_pos hminus]
          simp only [Ne, Option.map_eq_none']
          exact digitsVal_ne_none r hne hall
        · rw [if_neg hminus, if_pos h']
          simp only [Ne, Option.map_eq_none']
          exact digitsVal_ne_none r hne hall
    · rw [if_neg hsign] at h
      simp only [Bool.and_eq_true, Bool.not_eq_true', List.isEmpty_eq_false,
        List.all_eq_true] at h
      obtain ⟨-, hall⟩ := h
      have hcd : c.isDigit = true := hall c (by simp)
      have hdw : List.dropWhile isJsSpace (c :: r) = c :: r := by
        rw [List.dropWhile_cons, isJsSpace_of_isDigit c hcd]
        simp
      unfold jsParseInt
      rw [hdw]
      simp only [List.head?_cons, List.tail_cons]
      rw [if_neg (fun h' => hsign (Or.inl h')), if_neg (fun h' => hsign (Or.inr h'))]
      simp only [Ne, Option.map_eq_none']
      exact digitsVal_ne_none (c :: r) (by simp) hall

/-- With no NaN component, the length dispatch of `timeToSeconds` fails
exactly when there are more than three components. -/
lemma combineParts_none_iff (ps : List (Option ℤ)) (h : ∀ o ∈ ps, o ≠ none)
    (hne : ps ≠ []) : (combineParts ps = none ↔ 3 < ps.length) := by
  rcases ps with _ | ⟨a, _ | ⟨b, _ | ⟨c, _ | ⟨d, rest⟩⟩⟩⟩
  · exact absurd rfl hne
  · cases a with
    | none => exact absurd rfl (h none (by simp))
    | some va => simp [combineParts]
  · cases a with
    | none => exact absurd rfl (h none (by simp))
    | some va =>
      cases b with
      | none => exact absurd rfl (h none (by simp))
      | some vb => simp [combineParts]
  · cases a with
    | none => exact absurd rfl (h none (by simp))
    | some va =>
      cases b with
      | none => exact absurd rfl (h none (by simp))
      | some vb =>
        cases c with
        | none => exact absurd rfl (h none (by simp))
        | some vc => simp [combineParts]
  · cases a with
    | none => exact absurd rfl (h none (by simp))
    | some va =>
      cases b with
      | none => exact absurd rfl (h none (by simp))
      | some vb =>
        cases c with
        | none => exact absurd rfl (h none (by simp))
        | some vc =>
          constructor
          · intro _
            simp only [List.length_cons]
            omega
          · intro _
            rfl

/-- The null characterisation of `timeToSeconds`, stated on the character
list of the input. -/
lemma timeToSecondsCore_none_iff (cs : List Char) :
    timeToSecondsCore cs = none ↔
      (cs = [] ∨ 3 < (splitCols cs).length ∨
        ∃ p ∈ splitCols cs, jsParseInt p = none) := by
  by_cases hcs : cs = []
  · simp [timeToSecondsCore, hcs]
  · unfold timeToSecondsCore
    rw [if_neg hcs]
    by_cases hany : ((splitCols cs).map jsParseInt).any (fun o => o.isNone) = true
    · rw [if_pos hany]
      have hex : ∃ p ∈ splitCols cs, jsParseInt p = none := by
        rcases List.any_eq_true.mp hany with ⟨o, ho, hno⟩
        rcases List.mem_map.mp ho with ⟨p, hp, rfl⟩
        exact ⟨p, hp, Option.isNone_iff_eq_none.mp hno⟩
      simp [hcs, hex]
    · rw [if_neg hany]
      have hall : ∀ p ∈ splitCols cs, jsParseInt p ≠ none := by
        intro p hp hn
        exact hany (List.any_eq_true.mpr
          ⟨jsParseInt p, List.mem_map.mpr ⟨p, hp, rfl⟩,
            Option.isNone_iff_eq_none.mpr hn⟩)
      have hmap : ∀ o ∈ (splitCols cs).map jsParseInt, o ≠ none := by
        intro o ho
        rcases List.mem_map.mp ho with ⟨p, hp, rfl⟩
        exact hall p hp
      have hnem : (splitCols cs).map jsParseInt ≠ [] := by
        rw [Ne, List.map_eq_nil_iff]
        exact splitCols_ne_nil cs
      rw [combineParts_none_iff _ hmap hnem]
      have hnex : ¬ ∃ p ∈ splitCols cs, jsParseInt p = none := by
        rintro ⟨p, hp, hn⟩
        exact hall p hp hn
      simp [hcs, hnex, List.length_map]

/-- C8 counterexample: `timeToSeconds "1a"` returns `some 1`, not null —
`parseInt` reads the leading digit and ignores the trailing letter — even
though the single component `"1a"` is not a numeric integer; so "null iff
empty, more than three components, or a non-numeric/empty component" fails
in the only-if direction at `"1a"`. -/
theorem C8_cex :
    timeToSeconds "1a" = some 1
    ∧ ¬ ((timeToSeconds "1a" = none) ↔
        ("1a".toList = [] ∨ 3 < (splitCols "1a".toList).length ∨
          ∃ p ∈ splitCols "1a".toList, isNumericIntegerStr p = false)) := by
  constructor
  · decide
  · decide

/-- C8 amended: `timeToSeconds` is total (never throws) and returns null
exactly when the string is empty, has more than three colon-separated
components, or some component is NaN under `parseInt` — that is, has no
decimal digit after optional whitespace and an optional sign.  Components
that merely start with an integer (such as `"1a"`) are accepted using the
prefix; in particular every all-numeric-integer component, including
negative ones, is accepted. -/
theorem C8_thm : ∀ s : String,
    ((timeToSeconds s = none) ↔
      (s.toList = [] ∨ 3 < (splitCols s.toList).length ∨
        ∃ p ∈ splitCols s.toList, jsParseInt p = none))
    ∧ ∀ p : List Char, isNumericIntegerStr p = true → jsParseInt p ≠ none := by
  intro s
  exact ⟨timeToSecondsCore_none_iff s.toList, jsParseInt_ne_none_of_numeric⟩

/-- Witness for C8: at `"12:34"` every component parses, so the
characterisation rules null out. -/
theorem C8_wit : timeToSeconds "12:34" ≠ none := by
  intro hn
  exact absurd ((C8_thm "12:34").1.mp hn) (by decide)

end YtEditor
